import Mathlib

/-!
Verification development for the heart-range-monitor repository.

Shallow embedding of the ingest-to-parquet pipeline:
  - `app/config.py` : device priority table, canonical schema.
  - `app/util.py` / `consumer.py` : epoch-ms time and date-string helpers.
  - `app/storage.py` : atomic write, read path, dedup / priority / per-minute
    aggregation, query formatting.
  - `compact.py` : the compaction merge (sort by (timestamp_ms, priority),
    group by timestamp_ms, keep first).
  - `consumer.py` : batch grouping by (user_id, date_str) and the
    flush/ack step of the consumer loop.
  - `app/app.py` / `app/buffer.py` : the producer's enqueue path.

Dataframes are modelled as Lean lists of typed rows (the state after the
schema normalization both readers perform: all four canonical columns
present and typed).  `heart_rate` is carried as a rational so that the
arithmetic means computed by the aggregation steps are exact.  Machine
timestamps are `Int` epoch milliseconds (UTC), exactly the integers the
code stores in the `timestamp_ms` column; a Python `datetime` value is
modelled by the epoch-millisecond instant it denotes, so that
`datetime_to_epoch_ms` is the identity on the model.  Python's
`group_by` over a dataframe is modelled by collecting the distinct keys
in first-occurrence order and aggregating the filter-selected group of
each key, which is the semantics of polars `group_by(maintain_order=True)`
and agrees with the unordered `group_by` up to the order of the groups.
-/

/-- One stored sample row, in the canonical schema
`[timestamp_ms, heart_rate, device_id, user_id]` (app/config.py `CANONICAL_COLS`). -/
structure Row where
  timestamp_ms : Int
  heart_rate : ℚ
  device_id : String
  user_id : String
deriving Repr, DecidableEq

instance : Inhabited Row := ⟨⟨0, 0, "", ""⟩⟩

/-- One emitted query row `{timestamp, heart_rate, device_id}` (app/storage.py
`query_heart_rate_data`, final select). -/
structure OutRow where
  timestamp : String
  heart_rate : Int
  device_id : String
deriving Repr, DecidableEq

/-- app/config.py: `DEVICE_PRIORITY = {"device_a": 1, "device_b": 2}` (same
table in compact.py). -/
def DEVICE_PRIORITY : List (String × Int) := [("device_a", 1), ("device_b", 2)]

/-- app/config.py: `CANONICAL_COLS = ["timestamp_ms","heart_rate","device_id","user_id"]`. -/
def CANONICAL_COLS : List String := ["timestamp_ms", "heart_rate", "device_id", "user_id"]

/-- app/storage.py `apply_device_priority.get_priority`:
`DEVICE_PRIORITY.get(device_id, 999)`; compact.py produces the identical
mapping by a left join with the priority table followed by `fill_null(999)`. -/
def get_priority (device_id : String) : Int :=
  ((DEVICE_PRIORITY.find? (fun p => p.1 = device_id)).map Prod.snd).getD 999

/-! ## Time and date helpers

`util.epoch_ms_to_date_str` and the `strftime("%Y-%m-%dT%H:%M:%SZ")`
formatting of the query path need proleptic-Gregorian civil dates.
`civilFromDays` is the standard days-to-civil conversion, matching
Python's `datetime.fromtimestamp(·, tz=timezone.utc)` rendering.  Lean's
`Int` division `/` is Euclidean, which agrees with floor division for the
positive divisors used here, matching Python `//` and polars `dt.truncate`. -/

/-- Civil (year, month, day) of a number of days since 1970-01-01 (UTC). -/
def civilFromDays (z0 : Int) : Int × Int × Int :=
  let z := z0 + 719468
  let era := (if 0 ≤ z then z else z - 146096) / 146097
  let doe := z - era * 146097
  let yoe := (doe - doe / 1460 + doe / 36524 - doe / 146096) / 365
  let y := yoe + era * 400
  let doy := doe - (365 * yoe + yoe / 4 - yoe / 100)
  let mp := (5 * doy + 2) / 153
  let d := doy - (153 * mp + 2) / 5 + 1
  let m := mp + (if mp < 10 then 3 else -9)
  (y + (if m ≤ 2 then 1 else 0), m, d)

/-- Zero-padded two-digit rendering of a (nonnegative) field. -/
def pad2 (n : Int) : String :=
  (if n < 10 then "0" else "") ++ toString n

/-- Zero-padded four-digit rendering of a (nonnegative) year. -/
def pad4 (n : Int) : String :=
  (if n < 10 then "000" else if n < 100 then "00" else if n < 1000 then "0" else "") ++ toString n

/-- `strftime("%Y-%m-%d")` of a day count since the epoch. -/
def dateStrOfDays (days : Int) : String :=
  let c := civilFromDays days
  pad4 c.1 ++ "-" ++ pad2 c.2.1 ++ "-" ++ pad2 c.2.2

/-- app/util.py `epoch_ms_to_date_str` (also consumer.py): UTC date string of
an epoch-millisecond timestamp. -/
def epoch_ms_to_date_str (ms : Int) : String :=
  dateStrOfDays (ms / 1000 / 86400)

/-- app/storage.py `query_heart_rate_data`:
`strftime("%Y-%m-%dT%H:%M:%SZ")` of an epoch-millisecond timestamp. -/
def isoTimestamp (ms : Int) : String :=
  let secs := ms / 1000
  let sod := secs % 86400
  dateStrOfDays (secs / 86400) ++ "T" ++ pad2 (sod / 3600) ++ ":" ++
    pad2 ((sod % 3600) / 60) ++ ":" ++ pad2 (sod % 60) ++ "Z"

/-- polars `dt.truncate("1m")` on an ms-resolution UTC datetime: floor to the
minute boundary, in epoch milliseconds. -/
def minuteFloor (ms : Int) : Int := 60000 * (ms / 60000)

/-- UTC day index of an epoch-ms instant (Python `datetime.date()` of
`fromtimestamp(ms / 1000)`). -/
def dayFloor (ms : Int) : Int := ms / 1000 / 86400

/-- app/storage.py `read_user_data`: the walked date strings
`start.date() .. end.date()` inclusive. -/
def dateStrsInRange (start_ms end_ms : Int) : List String :=
  (List.range (dayFloor end_ms - dayFloor start_ms + 1).toNat).map
    (fun i => dateStrOfDays (dayFloor start_ms + i))

/-! ## First-occurrence dedup (dict/group-key collection order) -/

/-- Distinct elements of `l` not in `seen`, in first-occurrence order. -/
def firstDedupAux [DecidableEq α] : List α → List α → List α
  | [], _ => []
  | a :: l, seen =>
      if a ∈ seen then firstDedupAux l seen else a :: firstDedupAux l (a :: seen)

/-- Distinct elements of `l` in first-occurrence order: the key order of a
Python dict built by insertion and of polars `group_by(maintain_order=True)`. -/
def firstDedup [DecidableEq α] (l : List α) : List α := firstDedupAux l []

/-! ## Generic grouped aggregation

`group_by_agg key agg l` models a polars `group_by(key).agg(...)`: one output
row per distinct key (first-occurrence order), each produced by `agg` from the
rows of the group in frame order. -/

/-- Grouped aggregation over a row list. -/
def group_by_agg {K : Type} [DecidableEq K] (key : Row → K) (agg : K → List Row → Row)
    (l : List Row) : List Row :=
  (firstDedup (l.map key)).map (fun k => agg k (l.filter (fun r => key r = k)))

/-! ## Reader aggregation pipeline (app/storage.py) -/

/-- Arithmetic mean used by every `pl.col("heart_rate").mean()` aggregation. -/
def mean (l : List ℚ) : ℚ := l.sum / l.length

/-- The exact-instant grouping key `(timestamp, device_id)` of
`deduplicate_same_device`; on the reader's output rows it is also the
`(minute, device_id)` pair, since their timestamp is the truncated minute. -/
def sameInstantKey (r : Row) : Int × String := (r.timestamp_ms, r.device_id)

/-- The aggregation `agg(mean heart_rate, first user_id)` shared by
`deduplicate_same_device` and the minute bucketing of `aggregate_by_minute`:
the output row carries the group key and the aggregated columns. -/
def meanFirstAgg (k : Int × String) (g : List Row) : Row :=
  { timestamp_ms := k.1, heart_rate := mean (g.map Row.heart_rate),
    device_id := k.2, user_id := (g.map Row.user_id).headD "" }

/-- app/storage.py `deduplicate_same_device`: group by exact
`(timestamp, device_id)`, mean of `heart_rate`, first `user_id`. -/
def deduplicate_same_device (df : List Row) : List Row :=
  if df.isEmpty then df
  else group_by_agg sameInstantKey meanFirstAgg df

/-- Lexicographic sort key `(timestamp, priority)` used both by
app/storage.py `apply_device_priority` (`sort("timestamp", "_priority")`)
and by compact.py `merge_parts` (`sort(["timestamp_ms", "priority"])`). -/
def prioLE (a b : Row) : Prop :=
  a.timestamp_ms < b.timestamp_ms ∨
    (a.timestamp_ms = b.timestamp_ms ∧ get_priority a.device_id ≤ get_priority b.device_id)

instance : DecidableRel prioLE := fun a b => by unfold prioLE; infer_instance

/-- Shared tail of `apply_device_priority` and of compact.py `merge_parts`:
`group_by("timestamp…").first()` over the already-sorted frame — keep the
first row (in frame order) of each exact-timestamp group. -/
def group_first_by_ts (sorted : List Row) : List Row :=
  group_by_agg Row.timestamp_ms (fun _ g => g.headD default) sorted

/-- app/storage.py `apply_device_priority`: add the priority column, sort by
`(timestamp, _priority)`, group by exact timestamp and keep the first row. -/
def apply_device_priority (df : List Row) : List Row :=
  if df.isEmpty then df
  else group_first_by_ts (List.insertionSort prioLE df)

/-- Codepoint-wise lexicographic comparison of character lists: the utf8
string ordering polars sorts by. -/
def charListLe : List Char → List Char → Bool
  | [], _ => true
  | _ :: _, [] => false
  | a :: as, b :: bs =>
      if a.toNat < b.toNat then true
      else if b.toNat < a.toNat then false
      else charListLe as bs

/-- Lexicographic string order used for polars utf8 sort keys. -/
def strLE (a b : String) : Prop := charListLe a.toList b.toList = true

instance : DecidableRel strLE := fun a b => by unfold strLE; infer_instance

/-- Sort key `("_timestamp_minute", "device_id")` of app/storage.py
`aggregate_by_minute`. -/
def minuteDevLE (a b : Row) : Prop :=
  minuteFloor a.timestamp_ms < minuteFloor b.timestamp_ms ∨
    (minuteFloor a.timestamp_ms = minuteFloor b.timestamp_ms ∧ strLE a.device_id b.device_id)

instance : DecidableRel minuteDevLE := fun a b => by unfold minuteDevLE; infer_instance

/-- The `("_timestamp_minute", "device_id")` grouping key of
`aggregate_by_minute`. -/
def minuteKey (r : Row) : Int × String := (minuteFloor r.timestamp_ms, r.device_id)

/-- Step 2 of `aggregate_by_minute`: if a device filter was given, keep only
its rows; else resolve cross-device conflicts at identical instants by
priority. -/
def aggregate_select_device (df1 : List Row) (device_id : Option String) : List Row :=
  match device_id with
  | some d => df1.filter (fun r => r.device_id = d)
  | none => apply_device_priority df1

/-- app/storage.py `aggregate_by_minute`: dedup same device at the same
instant, then either filter by the requested device or resolve cross-device
conflicts by priority, then truncate to the minute, sort by
`(minute, device_id)`, and group by `(minute, device_id)` with mean
`heart_rate` and first `user_id`.  (The intermediate frames `df1`, `df2` of
the source are written inline.) -/
def aggregate_by_minute (df : List Row) (device_id : Option String) : List Row :=
  if df.isEmpty then df
  else if (deduplicate_same_device df).isEmpty then deduplicate_same_device df
  else if (aggregate_select_device (deduplicate_same_device df) device_id).isEmpty then
    aggregate_select_device (deduplicate_same_device df) device_id
  else
    group_by_agg minuteKey meanFirstAgg
      (List.insertionSort minuteDevLE
        (aggregate_select_device (deduplicate_same_device df) device_id))

/-- polars `cast(pl.Int64)` on the float mean: truncation toward zero. -/
def int_cast_trunc (q : ℚ) : Int := Int.tdiv q.num q.den

/-- Final `df.sort("timestamp")` key of `query_heart_rate_data`: lexicographic
order on the formatted timestamp strings. -/
def outLE (a b : OutRow) : Prop := strLE a.timestamp b.timestamp

instance : DecidableRel outLE := fun a b => by unfold outLE; infer_instance

/-! ## Storage layout and the read path (app/storage.py `read_user_data`) -/

/-- One `data/<date>/user-<user_id>/` directory: its columnar files
(compacted plus parts), each modelled post-normalization as a row list. -/
structure UserDayDir where
  date_str : String
  user_id : String
  frames : List (List Row)
deriving DecidableEq, Repr

/-- The on-disk data tree. -/
abbrev Store := List UserDayDir

/-- The frames found under `data/<date_str>/user-<user_id>/`. -/
def framesFor (store : Store) (date_str user_id : String) : List (List Row) :=
  (store.filter (fun e => e.date_str = date_str ∧ e.user_id = user_id)).flatMap
    UserDayDir.frames

/-- app/storage.py `read_user_data`: walk the date range, read every frame in
the user's directories, concatenate, and filter by
`timestamp_ms ∈ [start_ms, end_ms]`.  (The `timestamp_ms → timestamp`
projection keeps the same epoch-ms integer, so rows are carried unchanged.) -/
def read_user_data (user_id : String) (start_ms end_ms : Int) (store : Store) : List Row :=
  ((dateStrsInRange start_ms end_ms).flatMap (fun d => framesFor store d user_id)).flatten.filter
    (fun r => start_ms ≤ r.timestamp_ms ∧ r.timestamp_ms ≤ end_ms)

/-- Formatting step of `query_heart_rate_data`: ISO-8601 "Z" timestamp,
integer-cast heart rate, and the select of
`[timestamp, heart_rate, device_id]`. -/
def formatOutRow (r : Row) : OutRow :=
  { timestamp := isoTimestamp r.timestamp_ms,
    heart_rate := int_cast_trunc r.heart_rate,
    device_id := r.device_id }

/-- app/storage.py `query_heart_rate_data`: read, aggregate by minute, format
the timestamp, cast `heart_rate` to integer, sort by the formatted timestamp,
select `[timestamp, heart_rate, device_id]`. -/
def query_heart_rate_data (user_id : String) (start_ms end_ms : Int)
    (device_id : Option String) (store : Store) : List OutRow :=
  if (read_user_data user_id start_ms end_ms store).isEmpty then []
  else if (aggregate_by_minute (read_user_data user_id start_ms end_ms store) device_id).isEmpty
    then []
  else
    List.insertionSort outLE
      ((aggregate_by_minute (read_user_data user_id start_ms end_ms store) device_id).map
        formatOutRow)

/-! ## Compactor merge (compact.py `merge_parts`) -/

/-- compact.py `merge_parts`, rows: concatenate the normalized frames, join
the priority table (`fill_null(999)`), sort by `(timestamp_ms, priority)`,
group by `timestamp_ms`, keep the first row of each group. -/
def merge_rows (rows : List Row) : List Row :=
  group_first_by_ts (List.insertionSort prioLE rows)

/-- compact.py `merge_parts`: the merged frame from the existing compacted
file (if readable) and the snapshot parts, with the final
`select(["timestamp_ms","heart_rate","device_id","user_id"])` recorded as the
column list of the written frame. -/
def merge_parts (compacted : Option (List Row)) (parts : List (List Row)) :
    List String × List Row :=
  (CANONICAL_COLS, merge_rows ((compacted.getD []) ++ parts.flatten))

/-! ## Queue records (JSON payloads) and the consumer flush (consumer.py) -/

/-- A JSON scalar as it occurs in the queue payloads (ints and strings are
the only value shapes the pipeline produces). -/
inductive Val where
  | i (n : Int)
  | s (v : String)
deriving DecidableEq, Repr

/-- A decoded queue item: a JSON object as an association list in field
order (Python 3.7+ dicts preserve insertion order). -/
abbrev QRecord := List (String × Val)

/-- Python `rec.get(k)`. -/
def rget (rec : QRecord) (k : String) : Option Val :=
  (rec.find? (fun p => p.1 = k)).map Prod.snd

/-- Python truthiness of an optional JSON scalar (`None`, `0` and `""` are
falsy). -/
def truthy : Option Val → Bool
  | none => false
  | some (.i n) => decide (n ≠ 0)
  | some (.s v) => decide (v ≠ "")

/-- consumer.py line 62: `ts_ms = rec.get("timestamp_ms") or rec.get("enqueued_at")`. -/
def orGetTs (rec : QRecord) : Option Val :=
  let t := rget rec "timestamp_ms"
  if truthy t then t else rget rec "enqueued_at"

/-- Python `int(v)` on a queue scalar; a (non-numeric) string raises, which
`flush_batch_to_parts` turns into the current-date fallback. -/
def intOfVal : Val → Option Int
  | .i n => some n
  | .s _ => none

/-- consumer.py `flush_batch_to_parts`, date derivation for one record:
the `or`-selected timestamp if it is present and converts to an int,
else `datetime.utcnow().strftime("%Y-%m-%d")` (the `today` parameter). -/
def group_date_str (today : String) (rec : QRecord) : String :=
  match orGetTs rec with
  | none => today
  | some v =>
      match intOfVal v with
      | some n => epoch_ms_to_date_str n
      | none => today

/-- consumer.py `flush_batch_to_parts`: `rec.get("user_id", "unknown")`. -/
def group_user (rec : QRecord) : String :=
  match rget rec "user_id" with
  | some (.s u) => u
  | some (.i n) => toString n
  | none => "unknown"

/-- The `(user_id, date_str)` grouping key of `flush_batch_to_parts`. -/
def flush_key (today : String) (rec : QRecord) : String × String :=
  (group_user rec, group_date_str today rec)

/-- consumer.py `flush_batch_to_parts`, grouping phase: the
`groups.setdefault(key, []).append(rec)` dict, as (key, group) pairs with
keys in first-insertion order and each group in batch order. -/
def flush_groups (today : String) (batch : List QRecord) :
    List ((String × String) × List QRecord) :=
  (firstDedup (batch.map (flush_key today))).map
    (fun k => (k, batch.filter (fun r => flush_key today r = k)))

/-- A columnar frame as written to disk: its column list (in order) and its
records. -/
structure PartFrame where
  cols : List String
  records : List QRecord
deriving DecidableEq, Repr

/-- `pl.DataFrame(records)`: the schema is taken from the record keys in
first-seen order; no reordering to the canonical schema happens here. -/
def pl_DataFrame (records : List QRecord) : PartFrame :=
  ⟨firstDedup (records.flatMap (fun r => r.map Prod.fst)), records⟩

/-- consumer.py `flush_batch_to_parts`, write phase: one part frame per
`(user_id, date_str)` group, each frame built by `pl.DataFrame(records)` and
handed to `atomic_write_parquet` as-is. -/
def flush_batch_to_parts (today : String) (batch : List QRecord) :
    List ((String × String) × PartFrame) :=
  (flush_groups today batch).map (fun g => (g.1, pl_DataFrame g.2))

/-- State of the consumer loop that the FLUSH transition touches: the
in-flight list `PROCESSING_KEY` (of raw byte strings), the in-memory batch
of `(raw, parsed)` pairs, and the flush timer. -/
structure ConsumerState where
  processing : List String
  batch : List (String × QRecord)
  lastFlush : Int
deriving DecidableEq, Repr

/-- consumer.py `consumer_loop` lines 110-127, the FLUSH transition: on a
successful write, `redis.lrem(PROCESSING_KEY, 1, raw)` removes one
occurrence of each raw batch item; on a failed write nothing is removed;
in both cases the in-memory batch is cleared and the timer reset. -/
def flush_step (st : ConsumerState) (now : Int) (writeOk : Bool) : ConsumerState :=
  if writeOk then
    { processing := (st.batch.map Prod.fst).foldl (fun l r => l.erase r) st.processing,
      batch := [], lastFlush := now }
  else
    { processing := st.processing, batch := [], lastFlush := now }

/-! ## Producer enqueue path (app/app.py `enqueue_heartbeat`, app/buffer.py) -/

/-- The validated request body (`app/models.py Heartbeat`); the `timestamp`
datetime is modelled by the UTC epoch-ms instant it denotes. -/
structure Heartbeat where
  device_id : String
  user_id : String
  timestamp : Int
  heart_rate : Int
deriving DecidableEq, Repr

/-- app/util.py `datetime_to_epoch_ms`: on the epoch-ms model of datetimes
this is the identity (naive datetimes are interpreted as UTC). -/
def datetime_to_epoch_ms (dt : Int) : Int := dt

/-- app/app.py `enqueue_heartbeat` lines 128-133: the record constructed for
the queue — exactly these four fields, in this order. -/
def producer_record (p : Heartbeat) : QRecord :=
  [("device_id", .s p.device_id), ("user_id", .s p.user_id),
   ("timestamp_ms", .i (datetime_to_epoch_ms p.timestamp)),
   ("heart_rate", .i p.heart_rate)]

/-- app/buffer.py `add_record`: serialize and `rpush` onto the queue tail. -/
def add_record (record : QRecord) (queue : List QRecord) : List QRecord :=
  queue ++ [record]

/-- app/app.py `enqueue_heartbeat`: build the record and append it. -/
def enqueue_heartbeat (p : Heartbeat) (queue : List QRecord) : List QRecord :=
  add_record (producer_record p) queue

/-! ## Atomic write (app/storage.py `atomic_write_parquet`)

The filesystem state relevant to one destination path: the visible content
at `dest` and whether the `mkstemp` temporary file is present in the
directory.  A run is error-injected by a `WriteOutcome`: the serialization
(`df.write_parquet(tmp_path)`) or the atomic `os.replace` may raise; the
model relies on `os.replace` being all-or-nothing at the OS level. -/

/-- Content-indexed filesystem state for one destination. -/
structure FsState (α : Type) where
  dest : Option α
  tmpExists : Bool
deriving DecidableEq, Repr

/-- Which step of `atomic_write_parquet` fails, if any. -/
inductive WriteOutcome where
  | ok
  | failWriteParquet
  | failReplace
deriving DecidableEq, Repr

/-- Result of one `atomic_write_parquet` call: the filesystem state
afterwards, and whether the call returned normally (`ok = true`) or raised
(`ok = false`, the exception propagating to the caller). -/
structure AWResult (α : Type) where
  fs : FsState α
  ok : Bool
deriving DecidableEq, Repr

/-- app/storage.py `atomic_write_parquet`: `mkstemp` in the destination
directory, write the frame to the temp file, `os.replace` it over `dest`;
on any exception remove the temp file and re-raise. -/
def atomic_write_parquet (df : α) (fs : FsState α) (o : WriteOutcome) : AWResult α :=
  let fs1 : FsState α := { fs with tmpExists := true }
  match o with
  | .ok => ⟨{ dest := some df, tmpExists := false }, true⟩
  | .failWriteParquet => ⟨{ fs1 with tmpExists := false }, false⟩
  | .failReplace => ⟨{ fs1 with tmpExists := false }, false⟩

/-- Rename every row's `user_id` field (the column the reader is claimed
never to consult). -/
def renameUserRow (g : String → String) (r : Row) : Row :=
  { r with user_id := g r.user_id }

/-- Rename the `user_id` column of every stored row, leaving the directory
names (`date_str`, the `user-<id>` component) untouched. -/
def renameUserStore (g : String → String) (store : Store) : Store :=
  store.map (fun e => { e with frames := e.frames.map (List.map (renameUserRow g)) })


/-! ## General lemmas: first-occurrence dedup, grouped aggregation, the
string order, and totality/transitivity of the sort keys -/

theorem mem_firstDedupAux [DecidableEq α] {x : α} :
    ∀ {l seen : List α}, x ∈ firstDedupAux l seen ↔ x ∈ l ∧ x ∉ seen := by
  intro l
  induction l with
  | nil => intro seen; simp [firstDedupAux]
  | cons a t ih =>
      intro seen
      by_cases h : a ∈ seen
      · simp only [firstDedupAux, if_pos h, ih, List.mem_cons]
        constructor
        · rintro ⟨hx, hns⟩; exact ⟨Or.inr hx, hns⟩
        · rintro ⟨hx | hx, hns⟩
          · exact absurd (hx ▸ h) hns
          · exact ⟨hx, hns⟩
      · simp only [firstDedupAux, if_neg h, List.mem_cons, ih]
        constructor
        · rintro (rfl | ⟨hx, hns⟩)
          · exact ⟨Or.inl rfl, h⟩
          · exact ⟨Or.inr hx, fun hc => hns (Or.inr hc)⟩
        · rintro ⟨rfl | hx, hns⟩
          · exact Or.inl rfl
          · by_cases hxa : x = a
            · exact Or.inl hxa
            · refine Or.inr ⟨hx, ?_⟩
              rintro (hc | hc)
              · exact hxa hc
              · exact hns hc

theorem mem_firstDedup [DecidableEq α] {x : α} {l : List α} :
    x ∈ firstDedup l ↔ x ∈ l := by
  simp [firstDedup, mem_firstDedupAux]

theorem nodup_firstDedupAux [DecidableEq α] :
    ∀ (l seen : List α), (firstDedupAux l seen).Nodup := by
  intro l
  induction l with
  | nil => intro seen; simp [firstDedupAux]
  | cons a t ih =>
      intro seen
      by_cases h : a ∈ seen
      · simpa [firstDedupAux, if_pos h] using ih seen
      · simp only [firstDedupAux, if_neg h]
        refine List.nodup_cons.mpr ⟨?_, ih (a :: seen)⟩
        intro hc
        exact (mem_firstDedupAux.mp hc).2 (List.mem_cons_self a seen)

theorem nodup_firstDedup [DecidableEq α] (l : List α) : (firstDedup l).Nodup :=
  nodup_firstDedupAux l []

theorem firstDedupAux_eq_self [DecidableEq α] :
    ∀ {l seen : List α}, l.Nodup → (∀ x ∈ l, x ∉ seen) → firstDedupAux l seen = l := by
  intro l
  induction l with
  | nil => intro seen _ _; rfl
  | cons a t ih =>
      intro seen hnd hdisj
      have ha : a ∉ seen := hdisj a (List.mem_cons_self a t)
      simp only [firstDedupAux, if_neg ha]
      have hnd' := List.nodup_cons.mp hnd
      refine congrArg (a :: ·) (ih hnd'.2 ?_)
      intro x hx
      simp only [List.mem_cons, not_or]
      exact ⟨fun hxa => hnd'.1 (hxa ▸ hx), hdisj x (List.mem_cons_of_mem _ hx)⟩

theorem firstDedup_eq_self [DecidableEq α] {l : List α} (h : l.Nodup) :
    firstDedup l = l :=
  firstDedupAux_eq_self h (by simp)

theorem firstDedupAux_const [DecidableEq α] {c : α} :
    ∀ {l : List α} {seen : List α}, (∀ x ∈ l, x = c) → c ∈ seen →
      firstDedupAux l seen = [] := by
  intro l
  induction l with
  | nil => intro seen _ _; rfl
  | cons a t ih =>
      intro seen hall hc
      have ha : a = c := hall a (List.mem_cons_self a t)
      simp only [firstDedupAux, if_pos (ha ▸ hc)]
      exact ih (fun x hx => hall x (List.mem_cons_of_mem _ hx)) hc

theorem firstDedup_const [DecidableEq α] {c : α} {l : List α}
    (hne : l ≠ []) (hall : ∀ x ∈ l, x = c) : firstDedup l = [c] := by
  cases l with
  | nil => exact absurd rfl hne
  | cons a t =>
      have ha : a = c := hall a (List.mem_cons_self a t)
      subst ha
      have hnm : a ∉ ([] : List α) := List.not_mem_nil a
      simp only [firstDedup, firstDedupAux, if_neg hnm]
      refine congrArg (a :: ·) (firstDedupAux_const ?_ (List.mem_cons_self a []))
      intro x hx
      exact hall x (List.mem_cons_of_mem _ hx)

theorem group_filter_ne_nil {K : Type} [DecidableEq K] {key : Row → K} {l : List Row}
    {k : K} (hk : k ∈ firstDedup (l.map key)) :
    l.filter (fun r => key r = k) ≠ [] := by
  have hk' : k ∈ l.map key := mem_firstDedup.mp hk
  obtain ⟨r, hr, hkey⟩ := List.mem_map.mp hk'
  intro hnil
  have : r ∈ l.filter (fun r => key r = k) := by
    simp only [List.mem_filter, decide_eq_true_eq]
    exact ⟨hr, hkey⟩
  rw [hnil] at this
  exact List.not_mem_nil r this

theorem headD_mem {l : List α} (h : l ≠ []) (d : α) : l.headD d ∈ l := by
  cases l with
  | nil => exact absurd rfl h
  | cons a t => exact List.mem_cons_self a t

theorem group_by_agg_map_key {K : Type} [DecidableEq K] {key : Row → K}
    {agg : K → List Row → Row} {l : List Row}
    (h : ∀ k ∈ firstDedup (l.map key), key (agg k (l.filter (fun r => key r = k))) = k) :
    (group_by_agg key agg l).map key = firstDedup (l.map key) := by
  unfold group_by_agg
  rw [List.map_map]
  exact List.map_congr_left h |>.trans (List.map_id _)

theorem group_by_agg_nodup_key {K : Type} [DecidableEq K] {key : Row → K}
    {agg : K → List Row → Row} {l : List Row}
    (h : ∀ k ∈ firstDedup (l.map key), key (agg k (l.filter (fun r => key r = k))) = k) :
    ((group_by_agg key agg l).map key).Nodup := by
  rw [group_by_agg_map_key h]
  exact nodup_firstDedup _

theorem group_by_agg_mem {K : Type} [DecidableEq K] {key : Row → K}
    {agg : K → List Row → Row} {l : List Row} {s : Row}
    (hs : s ∈ group_by_agg key agg l) :
    ∃ k, k ∈ l.map key ∧ s = agg k (l.filter (fun r => key r = k)) := by
  unfold group_by_agg at hs
  obtain ⟨k, hk, hrw⟩ := List.mem_map.mp hs
  exact ⟨k, mem_firstDedup.mp hk, hrw.symm⟩

theorem filter_singleton_of_nodup_keys {K : Type} [DecidableEq K] {key : Row → K}
    {l : List Row} (hnd : (l.map key).Nodup) {r : Row} (hr : r ∈ l) :
    l.filter (fun x => key x = key r) = [r] := by
  induction l with
  | nil => exact absurd hr (List.not_mem_nil r)
  | cons a t ih =>
      have hnd2 : (key a :: t.map key).Nodup := by simpa using hnd
      have hna : key a ∉ t.map key := (List.nodup_cons.mp hnd2).1
      have hndt : (t.map key).Nodup := (List.nodup_cons.mp hnd2).2
      rcases List.mem_cons.mp hr with rfl | hrt
      · have ht : t.filter (fun x => key x = key r) = [] := by
          rw [List.filter_eq_nil_iff]
          intro x hx
          simp only [decide_eq_true_eq]
          intro hxa
          exact hna (hxa ▸ List.mem_map_of_mem key hx)
        simp [List.filter_cons, ht]
      · have hne : ¬ (key a = key r) := by
          intro he
          exact hna (he ▸ List.mem_map_of_mem key hrt)
        have := ih hndt hrt
        simp [List.filter_cons, hne, this]

theorem group_by_agg_of_nodup {K : Type} [DecidableEq K] {key : Row → K}
    {agg : K → List Row → Row} {l : List Row}
    (hnd : (l.map key).Nodup) (hagg : ∀ r : Row, agg (key r) [r] = r) :
    group_by_agg key agg l = l := by
  unfold group_by_agg
  rw [firstDedup_eq_self hnd]
  rw [List.map_map]
  refine (List.map_congr_left ?_).trans (List.map_id l)
  intro r hr
  simp only [Function.comp_apply, id_eq]
  rw [filter_singleton_of_nodup_keys hnd hr, hagg]

theorem charListLe_total : ∀ a b : List Char, charListLe a b = true ∨ charListLe b a = true := by
  intro a
  induction a with
  | nil => intro b; exact Or.inl rfl
  | cons x xs ih =>
      intro b
      cases b with
      | nil => exact Or.inr rfl
      | cons y ys =>
          by_cases h1 : x.toNat < y.toNat
          · left; simp [charListLe, h1]
          · by_cases h2 : y.toNat < x.toNat
            · right; simp [charListLe, h2]
            · rcases ih ys with h | h
              · left; simp [charListLe, h1, h2, h]
              · right; simp [charListLe, h1, h2, h]

theorem charListLe_trans :
    ∀ a b c : List Char, charListLe a b = true → charListLe b c = true →
      charListLe a c = true := by
  intro a
  induction a with
  | nil => intro b c _ _; rfl
  | cons x xs ih =>
      intro b c hab hbc
      cases b with
      | nil => simp [charListLe] at hab
      | cons y ys =>
          cases c with
          | nil => simp [charListLe] at hbc
          | cons z zs =>
              simp only [charListLe] at hab hbc ⊢
              by_cases hxy : x.toNat < y.toNat <;> by_cases hyz : y.toNat < z.toNat
              · simp [show x.toNat < z.toNat from hxy.trans hyz]
              · by_cases hzy : z.toNat < y.toNat
                · simp [hyz, hzy] at hbc
                · simp [show x.toNat < z.toNat by omega]
              · by_cases hyx : y.toNat < x.toNat
                · simp [hxy, hyx] at hab
                · simp [show x.toNat < z.toNat by omega]
              · by_cases hyx : y.toNat < x.toNat
                · simp [hxy, hyx] at hab
                · by_cases hzy : z.toNat < y.toNat
                  · simp [hyz, hzy] at hbc
                  · have hxz1 : ¬ x.toNat < z.toNat := by omega
                    have hxz2 : ¬ z.toNat < x.toNat := by omega
                    rw [if_neg hxz1, if_neg hxz2]
                    rw [if_neg hxy, if_neg hyx] at hab
                    rw [if_neg hyz, if_neg hzy] at hbc
                    exact ih ys zs hab hbc

theorem strLE_total (a b : String) : strLE a b ∨ strLE b a :=
  charListLe_total a.toList b.toList

theorem strLE_trans {a b c : String} (hab : strLE a b) (hbc : strLE b c) : strLE a c :=
  charListLe_trans a.toList b.toList c.toList hab hbc

instance : IsTotal Row prioLE where
  total a b := by
    unfold prioLE
    rcases lt_trichotomy a.timestamp_ms b.timestamp_ms with h | h | h
    · exact Or.inl (Or.inl h)
    · rcases le_total (get_priority a.device_id) (get_priority b.device_id) with h2 | h2
      · exact Or.inl (Or.inr ⟨h, h2⟩)
      · exact Or.inr (Or.inr ⟨h.symm, h2⟩)
    · exact Or.inr (Or.inl h)

instance : IsTrans Row prioLE where
  trans a b c hab hbc := by
    unfold prioLE at *
    rcases hab with h | ⟨he, hd⟩ <;> rcases hbc with h2 | ⟨he2, hd2⟩
    · exact Or.inl (h.trans h2)
    · exact Or.inl (he2 ▸ h)
    · exact Or.inl (he ▸ h2)
    · exact Or.inr ⟨he.trans he2, hd.trans hd2⟩

instance : IsTotal Row minuteDevLE where
  total a b := by
    unfold minuteDevLE
    rcases lt_trichotomy (minuteFloor a.timestamp_ms) (minuteFloor b.timestamp_ms) with h | h | h
    · exact Or.inl (Or.inl h)
    · rcases strLE_total a.device_id b.device_id with h2 | h2
      · exact Or.inl (Or.inr ⟨h, h2⟩)
      · exact Or.inr (Or.inr ⟨h.symm, h2⟩)
    · exact Or.inr (Or.inl h)

instance : IsTrans Row minuteDevLE where
  trans a b c hab hbc := by
    unfold minuteDevLE at *
    rcases hab with h | ⟨he, hd⟩ <;> rcases hbc with h2 | ⟨he2, hd2⟩
    · exact Or.inl (h.trans h2)
    · exact Or.inl (he2 ▸ h)
    · exact Or.inl (he ▸ h2)
    · exact Or.inr ⟨he.trans he2, strLE_trans hd hd2⟩

instance : IsTotal OutRow outLE where
  total a b := strLE_total a.timestamp b.timestamp

instance : IsTrans OutRow outLE where
  trans _ _ _ hab hbc := strLE_trans hab hbc


/-! ## Helper lemmas for the ack-count and the flush grouping -/

theorem count_foldl_erase [BEq α] [LawfulBEq α] :
    ∀ (raws : List α) (l : List α) (x : α),
      (raws.foldl (fun acc r => acc.erase r) l).count x = l.count x - raws.count x := by
  intro raws
  induction raws with
  | nil => intro l x; simp
  | cons r rs ih =>
      intro l x
      simp only [List.foldl_cons]
      rw [ih, List.count_erase, List.count_cons]
      by_cases h : r = x
      · subst h
        simp only [beq_self_eq_true, if_true, eq_self_iff_true]
        omega
      · have h1 : (r == x) = false := beq_eq_false_iff_ne.mpr h
        have h2 : (x == r) = false := beq_eq_false_iff_ne.mpr (Ne.symm h)
        simp only [h1, h2, Bool.false_eq_true, if_false]
        omega

theorem flush_groups_mem (today : String) (batch : List QRecord) {rec : QRecord}
    (hrec : rec ∈ batch) :
    ∃ g ∈ flush_groups today batch, g.1 = flush_key today rec ∧ rec ∈ g.2 := by
  refine ⟨(flush_key today rec, batch.filter (fun r => flush_key today r = flush_key today rec)),
    ?_, rfl, ?_⟩
  · unfold flush_groups
    refine List.mem_map.mpr ⟨flush_key today rec, ?_, rfl⟩
    exact mem_firstDedup.mpr (List.mem_map_of_mem _ hrec)
  · simp [List.mem_filter, hrec]

/-! ## C4 : atomicity of the parquet write -/

/-- C4: `atomic_write_parquet` is all-or-nothing.  For every frame,
destination state and injected outcome: the temp file never survives the
call; a normal return leaves the complete frame visible at the destination;
a raising return leaves the destination's previous content unchanged; and
the call returns normally exactly when no step failed. -/
theorem c4_atomic_write_all_or_nothing {α : Type} (df : α) (fs : FsState α)
    (o : WriteOutcome) :
    (atomic_write_parquet df fs o).fs.tmpExists = false ∧
    ((atomic_write_parquet df fs o).ok = true →
      (atomic_write_parquet df fs o).fs.dest = some df) ∧
    ((atomic_write_parquet df fs o).ok = false →
      (atomic_write_parquet df fs o).fs.dest = fs.dest) ∧
    ((atomic_write_parquet df fs o).ok = true ↔ o = WriteOutcome.ok) := by
  cases o <;> simp [atomic_write_parquet]

/-- Witness for C4 at a concrete frame and destination: a failed replace
leaves the old content and no temp file; a clean run installs the new frame. -/
theorem c4_atomic_write_witness :
    (atomic_write_parquet (5 : Int) ⟨some 3, false⟩ WriteOutcome.failReplace).fs.dest = some 3 ∧
    (atomic_write_parquet (5 : Int) ⟨some 3, false⟩ WriteOutcome.failReplace).fs.tmpExists = false ∧
    (atomic_write_parquet (5 : Int) ⟨some 3, false⟩ WriteOutcome.ok).fs.dest = some 5 :=
  ⟨(c4_atomic_write_all_or_nothing 5 ⟨some 3, false⟩ .failReplace).2.2.1 rfl,
   (c4_atomic_write_all_or_nothing 5 ⟨some 3, false⟩ .failReplace).1,
   (c4_atomic_write_all_or_nothing 5 ⟨some 3, false⟩ .ok).2.1 rfl⟩

/-! ## C5 : flush acknowledgement discipline -/

/-- C5: the FLUSH transition of `consumer_loop`.  On a successful write
exactly one occurrence of each raw batch item is removed from
`PROCESSING_KEY` (the in-flight count of every byte string drops by its
multiplicity in the batch, truncated at zero), the batch is cleared and the
timer reset; on a failed write the in-flight list is untouched while the
in-memory batch is still cleared. -/
theorem c5_flush_ack_discipline (st : ConsumerState) (now : Int) :
    (∀ x : String, (flush_step st now true).processing.count x
        = st.processing.count x - (st.batch.map Prod.fst).count x) ∧
    (flush_step st now true).batch = [] ∧
    (flush_step st now true).lastFlush = now ∧
    (flush_step st now false).processing = st.processing ∧
    (flush_step st now false).batch = [] ∧
    (flush_step st now false).lastFlush = now := by
  refine ⟨fun x => ?_, rfl, rfl, rfl, rfl, rfl⟩
  simp only [flush_step, if_pos]
  exact count_foldl_erase (st.batch.map Prod.fst) st.processing x

/-! ## C8 : the producer's queue record -/

/-- C8 counterexample: the record the producer appends for a concrete
accepted sample has exactly the four Sample fields and no `enqueued_at`
field at all, contradicting the claim that an `enqueued_at` epoch-ms field
is added. -/
theorem c8_no_enqueued_at :
    (enqueue_heartbeat ⟨"device_a", "u1", 1705315230000, 75⟩ []).map
        (fun r => r.map Prod.fst)
      = [["device_id", "user_id", "timestamp_ms", "heart_rate"]] ∧
    rget (producer_record ⟨"device_a", "u1", 1705315230000, 75⟩) "enqueued_at" = none := by
  exact ⟨by decide, by decide⟩

/-- C8 amended: for every accepted sample the producer appends exactly the
Sample's four canonical fields (`device_id`, `user_id`, `timestamp_ms`,
`heart_rate`) to the queue tail; no `enqueued_at` field is added by this
producer. -/
theorem c8_producer_record_fields (p : Heartbeat) (queue : List QRecord) :
    enqueue_heartbeat p queue = queue ++ [producer_record p] ∧
    (producer_record p).map Prod.fst
      = ["device_id", "user_id", "timestamp_ms", "heart_rate"] ∧
    rget (producer_record p) "enqueued_at" = none := by
  refine ⟨rfl, rfl, ?_⟩
  simp [rget, producer_record, List.find?]

/-! ## C9 : day derivation of the flush grouping -/

/-- C9 counterexample: a record carrying `timestamp_ms = 0` (midnight
1970-01-01, present but falsy in Python) is grouped under the day of its
`enqueued_at` instead of the day of its own timestamp, because
`rec.get("timestamp_ms") or rec.get("enqueued_at")` falls through on any
falsy value, not only on an absent one. -/
theorem c9_zero_timestamp_falls_back :
    flush_key "2025-10-12"
        [("user_id", Val.s "u1"), ("timestamp_ms", Val.i 0), ("enqueued_at", Val.i 86400000)]
      = ("u1", "1970-01-02") ∧
    epoch_ms_to_date_str 0 = "1970-01-01" ∧
    ("1970-01-02" : String) ≠ "1970-01-01" := by
  exact ⟨by decide, by decide, by decide⟩

/-- C9 amended: the flush grouping derives a record's day from the record's
own `timestamp_ms` whenever that field is present and truthy (a nonzero
integer); `enqueued_at` is consulted when `timestamp_ms` is absent (or
falsy), and every batch record lands in the group keyed by its
`(user, day)` key. -/
theorem c9_day_source (today : String) (rec : QRecord) (batch : List QRecord) (n m : Int) :
    (rget rec "timestamp_ms" = some (Val.i n) → n ≠ 0 →
      group_date_str today rec = epoch_ms_to_date_str n) ∧
    (rget rec "timestamp_ms" = none → rget rec "enqueued_at" = some (Val.i m) → m ≠ 0 →
      group_date_str today rec = epoch_ms_to_date_str m) ∧
    (rec ∈ batch →
      ∃ g ∈ flush_groups today batch, g.1 = flush_key today rec ∧ rec ∈ g.2) := by
  refine ⟨?_, ?_, fun h => flush_groups_mem today batch h⟩
  · intro hts hn
    unfold group_date_str orGetTs
    rw [hts]
    simp [truthy, hn, intOfVal]
  · intro hts henq _
    unfold group_date_str orGetTs
    rw [hts, henq]
    simp [truthy, intOfVal]

/-- Witness for C9 at concrete records: a nonzero `timestamp_ms` of
1705315230000 yields the day 2024-01-15; with `timestamp_ms` absent,
`enqueued_at` 86400000 yields 1970-01-02; and the record is placed in its
keyed group. -/
theorem c9_day_source_witness :
    group_date_str "2025-10-12" [("user_id", Val.s "u1"), ("timestamp_ms", Val.i 1705315230000)]
      = epoch_ms_to_date_str 1705315230000 ∧
    group_date_str "2025-10-12" [("user_id", Val.s "u1"), ("enqueued_at", Val.i 86400000)]
      = epoch_ms_to_date_str 86400000 ∧
    (∃ g ∈ flush_groups "2025-10-12" [[("user_id", Val.s "u1"), ("timestamp_ms", Val.i 1705315230000)]],
      g.1 = flush_key "2025-10-12" [("user_id", Val.s "u1"), ("timestamp_ms", Val.i 1705315230000)] ∧
      [("user_id", Val.s "u1"), ("timestamp_ms", Val.i 1705315230000)] ∈ g.2) :=
  ⟨(c9_day_source "2025-10-12" _ [] 1705315230000 0).1 (by decide) (by decide),
   (c9_day_source "2025-10-12" _ [] 0 86400000).2.1 (by decide) (by decide) (by decide),
   (c9_day_source "2025-10-12" _ _ 0 0).2.2 (by decide)⟩

/-! ## C1 : columns of the written files -/

/-- C1 counterexample: the consumer's flush writes the part frame for a
producer record with the columns in the record's own key order
`[device_id, user_id, timestamp_ms, heart_rate]`, which is not the canonical
order — `flush_batch_to_parts` never reorders columns before the atomic
write. -/
theorem c1_flush_not_canonical_cols :
    (flush_batch_to_parts "2024-01-15" [producer_record ⟨"device_a", "u1", 1705315230000, 75⟩]).map
        (fun g => g.2.cols)
      = [["device_id", "user_id", "timestamp_ms", "heart_rate"]] ∧
    ["device_id", "user_id", "timestamp_ms", "heart_rate"] ≠ CANONICAL_COLS := by
  exact ⟨by decide, by decide⟩

/-- C1 amended: the compactor enforces the canonical column order (its final
select) on every compacted frame it writes, but the consumer's flush writes
each part frame exactly as `pl.DataFrame(records)` builds it — columns in
record key order, which for this producer's records is
`[device_id, user_id, timestamp_ms, heart_rate]`, not the canonical order;
canonical order is restored only by the normalization on read and merge. -/
theorem c1_flush_and_compact_columns :
    (∀ (compacted : Option (List Row)) (parts : List (List Row)),
        (merge_parts compacted parts).1 = CANONICAL_COLS) ∧
    (∀ (today : String) (batch : List QRecord) (g : (String × String) × PartFrame),
        g ∈ flush_batch_to_parts today batch →
          g.2 = pl_DataFrame (batch.filter (fun r => flush_key today r = g.1))) ∧
    (∀ p : Heartbeat,
        (pl_DataFrame [producer_record p]).cols
          = ["device_id", "user_id", "timestamp_ms", "heart_rate"]) := by
  refine ⟨fun _ _ => rfl, ?_, fun p => rfl⟩
  intro today batch g hg
  unfold flush_batch_to_parts at hg
  obtain ⟨g0, hg0, rfl⟩ := List.mem_map.mp hg
  unfold flush_groups at hg0
  obtain ⟨k, _, rfl⟩ := List.mem_map.mp hg0
  rfl

/-- Witness for C1 at concrete frames: the compacted frame of a one-part
merge carries the canonical columns, and a concrete flushed part frame is
exactly the unreordered `pl.DataFrame` of its group. -/
theorem c1_columns_witness :
    (merge_parts none [[⟨0, 75, "device_a", "u1"⟩]]).1 = CANONICAL_COLS ∧
    (pl_DataFrame [producer_record ⟨"device_a", "u1", 0, 75⟩]).cols
      = ["device_id", "user_id", "timestamp_ms", "heart_rate"] ∧
    (("u1", "1970-01-01"), pl_DataFrame [producer_record ⟨"device_a", "u1", 0, 75⟩]).2
      = pl_DataFrame ([producer_record ⟨"device_a", "u1", 0, 75⟩].filter
          (fun r => flush_key "1970-01-01" r = ("u1", "1970-01-01"))) :=
  ⟨c1_flush_and_compact_columns.1 none _,
   c1_flush_and_compact_columns.2.2 _,
   c1_flush_and_compact_columns.2.1 "1970-01-01" [producer_record ⟨"device_a", "u1", 0, 75⟩]
     _ (by decide)⟩

/-! ## Sorted group-first machinery (shared by the compactor merge and the
reader's device-priority step) -/

theorem group_first_headD_props {sorted : List Row} {t : Int}
    (ht : t ∈ firstDedup (sorted.map Row.timestamp_ms)) :
    (sorted.filter (fun r => Row.timestamp_ms r = t)).headD default ∈ sorted ∧
    ((sorted.filter (fun r => Row.timestamp_ms r = t)).headD default).timestamp_ms = t := by
  have hne : sorted.filter (fun r => Row.timestamp_ms r = t) ≠ [] :=
    @group_filter_ne_nil Int _ Row.timestamp_ms sorted t ht
  have hmem := headD_mem hne default
  have h2 := List.mem_filter.mp hmem
  exact ⟨h2.1, by simpa using h2.2⟩

theorem head_filter_min_prio {sorted : List Row} (hs : List.Sorted prioLE sorted)
    {t : Int} :
    ∀ r ∈ sorted, r.timestamp_ms = t →
      get_priority ((sorted.filter (fun x => Row.timestamp_ms x = t)).headD default).device_id
        ≤ get_priority r.device_id := by
  intro r hr hrt
  have hrf : r ∈ sorted.filter (fun x => Row.timestamp_ms x = t) :=
    List.mem_filter.mpr ⟨hr, by simpa using hrt⟩
  have hsf : (sorted.filter (fun x => Row.timestamp_ms x = t)).Pairwise prioLE :=
    List.Pairwise.filter _ hs
  cases hfe : sorted.filter (fun x => Row.timestamp_ms x = t) with
  | nil => rw [hfe] at hrf; exact absurd hrf (List.not_mem_nil r)
  | cons a l =>
      rw [hfe] at hrf hsf
      simp only [List.headD_cons]
      rcases List.mem_cons.mp hrf with rfl | hrl
      · exact le_refl _
      · have hrel : prioLE a r := List.rel_of_sorted_cons hsf r hrl
        have ham : a ∈ sorted.filter (fun x => Row.timestamp_ms x = t) := by
          rw [hfe]; exact List.mem_cons_self a l
        have hat : a.timestamp_ms = t := by simpa using (List.mem_filter.mp ham).2
        rcases hrel with hlt | ⟨_, hple⟩
        · rw [hat, hrt] at hlt; exact absurd hlt (lt_irrefl t)
        · exact hple

theorem group_first_by_ts_spec (l : List Row) :
    ((group_first_by_ts (List.insertionSort prioLE l)).map Row.timestamp_ms).Nodup ∧
    (∀ t : Int,
      t ∈ (group_first_by_ts (List.insertionSort prioLE l)).map Row.timestamp_ms ↔
        t ∈ l.map Row.timestamp_ms) ∧
    (∀ s ∈ group_first_by_ts (List.insertionSort prioLE l),
      s ∈ l ∧ ∀ r ∈ l, r.timestamp_ms = s.timestamp_ms →
        get_priority s.device_id ≤ get_priority r.device_id) := by
  have hperm : (List.insertionSort prioLE l).Perm l := List.perm_insertionSort prioLE l
  have hsorted : (List.insertionSort prioLE l).Sorted prioLE :=
    List.sorted_insertionSort prioLE l
  have hkey : ∀ k ∈ firstDedup ((List.insertionSort prioLE l).map Row.timestamp_ms),
      Row.timestamp_ms ((fun (_ : Int) (g : List Row) => g.headD default) k
        ((List.insertionSort prioLE l).filter (fun r => Row.timestamp_ms r = k))) = k :=
    fun k hk => (group_first_headD_props hk).2
  have hmap : (group_first_by_ts (List.insertionSort prioLE l)).map Row.timestamp_ms
      = firstDedup ((List.insertionSort prioLE l).map Row.timestamp_ms) :=
    group_by_agg_map_key hkey
  refine ⟨?_, ?_, ?_⟩
  · rw [hmap]; exact nodup_firstDedup _
  · intro t
    rw [hmap, mem_firstDedup]
    exact (hperm.map Row.timestamp_ms).mem_iff
  · intro s hs
    obtain ⟨k, hk, rfl⟩ := group_by_agg_mem hs
    have hk2 : k ∈ firstDedup ((List.insertionSort prioLE l).map Row.timestamp_ms) :=
      mem_firstDedup.mpr hk
    obtain ⟨hmem, hts⟩ := group_first_headD_props hk2
    refine ⟨hperm.mem_iff.mp hmem, ?_⟩
    intro r hr hrts
    have hr2 : r ∈ List.insertionSort prioLE l := hperm.mem_iff.mpr hr
    exact head_filter_min_prio hsorted r hr2 (by rw [hrts, hts])

theorem apply_device_priority_spec (df : List Row) :
    ∀ s ∈ apply_device_priority df, s ∈ df ∧
      ∀ r ∈ df, r.timestamp_ms = s.timestamp_ms →
        get_priority s.device_id ≤ get_priority r.device_id := by
  intro s hs
  unfold apply_device_priority at hs
  by_cases h0 : df.isEmpty
  · rw [if_pos h0] at hs
    rw [List.isEmpty_iff.mp h0] at hs
    exact absurd hs (List.not_mem_nil s)
  · rw [if_neg h0] at hs
    exact (group_first_by_ts_spec df).2.2 s hs

/-! ## C3 : the compaction merge -/

/-- C3: the compaction merge keeps exactly one row per distinct
`timestamp_ms` (the merged timestamps are exactly the input timestamps,
without duplicates), every kept row is an input row whose device has
minimal priority number among the input rows at its timestamp (unknown
devices taking the sentinel 999 via `get_priority`), and in particular a
row that shares its timestamp with a strictly-higher-priority (smaller
number) row never survives. -/
theorem c3_merge_one_per_timestamp (rows : List Row) :
    ((merge_rows rows).map Row.timestamp_ms).Nodup ∧
    (∀ t : Int, t ∈ (merge_rows rows).map Row.timestamp_ms ↔ t ∈ rows.map Row.timestamp_ms) ∧
    (∀ s ∈ merge_rows rows, s ∈ rows ∧
      ∀ r ∈ rows, r.timestamp_ms = s.timestamp_ms →
        get_priority s.device_id ≤ get_priority r.device_id) ∧
    (∀ r1 ∈ rows, ∀ r2 ∈ rows, ∀ s ∈ merge_rows rows,
      r1.timestamp_ms = r2.timestamp_ms → s.timestamp_ms = r1.timestamp_ms →
      get_priority r1.device_id < get_priority r2.device_id → s ≠ r2) := by
  obtain ⟨h1, h2, h3⟩ := group_first_by_ts_spec rows
  refine ⟨h1, h2, h3, ?_⟩
  intro r1 h1m r2 h2m s hsm hts12 hts h12
  obtain ⟨_, hmin⟩ := h3 s hsm
  have hle : get_priority s.device_id ≤ get_priority r1.device_id :=
    hmin r1 h1m hts.symm
  intro heq
  rw [heq] at hle
  exact absurd (lt_of_le_of_lt hle h12) (lt_irrefl _)

/-- Witness for C3 on scenario 3 of the spec: two samples at the identical
timestamp from `device_b` (priority 2) and `device_a` (priority 1); the
merge keeps one row per timestamp, the timestamp survives, the surviving
`device_a` row is an input row, and the `device_b` row does not survive. -/
theorem c3_merge_witness :
    ((merge_rows [⟨1705315200000, 100, "device_b", "u3"⟩,
        ⟨1705315200000, 80, "device_a", "u3"⟩]).map Row.timestamp_ms).Nodup ∧
    (1705315200000 : Int) ∈ (merge_rows [⟨1705315200000, 100, "device_b", "u3"⟩,
        ⟨1705315200000, 80, "device_a", "u3"⟩]).map Row.timestamp_ms ∧
    (⟨1705315200000, 80, "device_a", "u3"⟩ : Row)
      ∈ [(⟨1705315200000, 100, "device_b", "u3"⟩ : Row), ⟨1705315200000, 80, "device_a", "u3"⟩] ∧
    (⟨1705315200000, 80, "device_a", "u3"⟩ : Row) ≠ ⟨1705315200000, 100, "device_b", "u3"⟩ := by
  refine ⟨?_, ?_, ?_, ?_⟩
  · exact (c3_merge_one_per_timestamp
      [⟨1705315200000, 100, "device_b", "u3"⟩, ⟨1705315200000, 80, "device_a", "u3"⟩]).1
  · exact ((c3_merge_one_per_timestamp
      [⟨1705315200000, 100, "device_b", "u3"⟩, ⟨1705315200000, 80, "device_a", "u3"⟩]).2.1
        1705315200000).mpr (by decide)
  · exact ((c3_merge_one_per_timestamp
      [⟨1705315200000, 100, "device_b", "u3"⟩, ⟨1705315200000, 80, "device_a", "u3"⟩]).2.2.1
        ⟨1705315200000, 80, "device_a", "u3"⟩ (by decide)).1
  · exact (c3_merge_one_per_timestamp
      [⟨1705315200000, 100, "device_b", "u3"⟩, ⟨1705315200000, 80, "device_a", "u3"⟩]).2.2.2
        ⟨1705315200000, 80, "device_a", "u3"⟩ (by decide)
        ⟨1705315200000, 100, "device_b", "u3"⟩ (by decide)
        ⟨1705315200000, 80, "device_a", "u3"⟩ (by decide)
        (by decide) (by decide) (by decide)

/-! ## C2 : at most one reader row per (minute, device) -/

theorem minuteFloor_idem (t : Int) : minuteFloor (minuteFloor t) = minuteFloor t := by
  unfold minuteFloor
  rw [Int.mul_ediv_cancel_left _ (by norm_num : (60000 : Int) ≠ 0)]

theorem deduplicate_ts_mem (df : List Row) :
    ∀ s ∈ deduplicate_same_device df, ∃ r ∈ df, s.timestamp_ms = r.timestamp_ms := by
  intro s hs
  unfold deduplicate_same_device at hs
  by_cases h0 : df.isEmpty
  · rw [if_pos h0, List.isEmpty_iff.mp h0] at hs
    exact absurd hs (List.not_mem_nil s)
  · rw [if_neg h0] at hs
    obtain ⟨k, hk, rfl⟩ := group_by_agg_mem hs
    obtain ⟨r, hr, hkr⟩ := List.mem_map.mp hk
    refine ⟨r, hr, ?_⟩
    show k.1 = r.timestamp_ms
    rw [← hkr]
    rfl

/-- Every run of `aggregate_by_minute` either returns the empty frame or is
the minute grouping of a sorted intermediate frame `df2`, each of whose rows
carries the timestamp of some input row. -/
theorem aggregate_by_minute_shape (df : List Row) (dev : Option String) :
    aggregate_by_minute df dev = [] ∨
    ∃ df2 : List Row,
      (∀ r2 ∈ df2, ∃ r ∈ df, r2.timestamp_ms = r.timestamp_ms) ∧
      aggregate_by_minute df dev
        = group_by_agg minuteKey meanFirstAgg (List.insertionSort minuteDevLE df2) := by
  unfold aggregate_by_minute
  by_cases h0 : df.isEmpty
  · rw [if_pos h0]
    exact Or.inl (List.isEmpty_iff.mp h0)
  · rw [if_neg h0]
    by_cases h1 : (deduplicate_same_device df).isEmpty
    · rw [if_pos h1]
      exact Or.inl (List.isEmpty_iff.mp h1)
    · rw [if_neg h1]
      by_cases h2 : (aggregate_select_device (deduplicate_same_device df) dev).isEmpty
      · rw [if_pos h2]
        exact Or.inl (List.isEmpty_iff.mp h2)
      · rw [if_neg h2]
        refine Or.inr ⟨aggregate_select_device (deduplicate_same_device df) dev, ?_, rfl⟩
        intro r2 hr2
        have hdd : r2 ∈ deduplicate_same_device df := by
          unfold aggregate_select_device at hr2
          cases dev with
          | some d => exact (List.mem_filter.mp hr2).1
          | none => exact (apply_device_priority_spec _ r2 hr2).1
        exact deduplicate_ts_mem df r2 hdd

theorem group_minute_keys_nodup (l : List Row) :
    ((group_by_agg minuteKey meanFirstAgg l).map sameInstantKey).Nodup := by
  have hkey : ∀ k ∈ firstDedup (l.map minuteKey),
      minuteKey (meanFirstAgg k (l.filter (fun r => minuteKey r = k))) = k := by
    intro k hk
    obtain ⟨r, _, hkr⟩ := List.mem_map.mp (mem_firstDedup.mp hk)
    show (minuteFloor k.1, k.2) = k
    have h1 : minuteFloor k.1 = k.1 := by rw [← hkr]; exact minuteFloor_idem _
    rw [h1]
  have hcong : (group_by_agg minuteKey meanFirstAgg l).map sameInstantKey
      = (group_by_agg minuteKey meanFirstAgg l).map minuteKey := by
    refine List.map_congr_left ?_
    intro s hs
    obtain ⟨k, hk, rfl⟩ := group_by_agg_mem hs
    obtain ⟨r, _, hkr⟩ := List.mem_map.mp hk
    show (k.1, k.2) = (minuteFloor k.1, k.2)
    have h1 : minuteFloor k.1 = k.1 := by rw [← hkr]; exact minuteFloor_idem _
    rw [h1]
  rw [hcong]
  exact group_by_agg_nodup_key hkey

theorem aggregate_by_minute_keys_nodup (df : List Row) (dev : Option String) :
    ((aggregate_by_minute df dev).map sameInstantKey).Nodup := by
  rcases aggregate_by_minute_shape df dev with h | ⟨df2, _, h⟩
  · rw [h]; simp
  · rw [h]; exact group_minute_keys_nodup _

/-- C2 counterexample: with no device filter, two devices reporting at
different exact instants inside the same minute both survive the priority
step (which only resolves identical timestamps) and the minute aggregation
emits two rows for that one minute — the reader's output is not limited to
one row per minute overall. -/
theorem c2_two_devices_one_minute :
    (aggregate_by_minute
        [⟨10000, 70, "device_b", "u1"⟩, ⟨20000, 80, "device_a", "u1"⟩] none).map
          Row.timestamp_ms = [0, 0] ∧
    ¬ ((aggregate_by_minute
        [⟨10000, 70, "device_b", "u1"⟩, ⟨20000, 80, "device_a", "u1"⟩] none).map
          Row.timestamp_ms).Nodup := by
  exact ⟨by decide, by decide⟩

/-- C2 amended: the reader's output has at most one row per
`(minute, device_id)` pair — with or without a device filter — and the
device-priority step keeps, at each exact `timestamp_ms`, only a row of
minimal priority number among the rows at that instant; but with no device
filter the output may still contain several rows for the same minute, one
per device reporting in it at distinct instants. -/
theorem c2_minute_device_rows (df : List Row) (dev : Option String) :
    ((aggregate_by_minute df dev).map (fun r => (r.timestamp_ms, r.device_id))).Nodup ∧
    (∀ l : List Row, ∀ s ∈ apply_device_priority l, s ∈ l ∧
      ∀ r ∈ l, r.timestamp_ms = s.timestamp_ms →
        get_priority s.device_id ≤ get_priority r.device_id) :=
  ⟨aggregate_by_minute_keys_nodup df dev, fun l s hs => apply_device_priority_spec l s hs⟩

/-- Witness for C2: the two-device one-minute query has pairwise-distinct
`(minute, device)` keys, and on a concrete exact-timestamp collision the
priority step keeps the `device_a` row, an input row of minimal priority. -/
theorem c2_minute_device_rows_witness :
    ((aggregate_by_minute
        [⟨10000, 70, "device_b", "u1"⟩, ⟨20000, 80, "device_a", "u1"⟩] none).map
          (fun r => (r.timestamp_ms, r.device_id))).Nodup ∧
    (⟨1000, 80, "device_a", "u1"⟩ : Row)
      ∈ [(⟨1000, 70, "device_b", "u1"⟩ : Row), ⟨1000, 80, "device_a", "u1"⟩] ∧
    get_priority "device_a" ≤ get_priority "device_b" :=
  ⟨(c2_minute_device_rows _ none).1,
   ((c2_minute_device_rows [] none).2 [⟨1000, 70, "device_b", "u1"⟩, ⟨1000, 80, "device_a", "u1"⟩]
      ⟨1000, 80, "device_a", "u1"⟩ (by decide)).1,
   ((c2_minute_device_rows [] none).2 [⟨1000, 70, "device_b", "u1"⟩, ⟨1000, 80, "device_a", "u1"⟩]
      ⟨1000, 80, "device_a", "u1"⟩ (by decide)).2
     ⟨1000, 70, "device_b", "u1"⟩ (by decide) (by decide)⟩

/-! ## C6 : per-minute mean for a single device -/

theorem mean_perm {l1 l2 : List ℚ} (h : l1.Perm l2) : mean l1 = mean l2 := by
  unfold mean
  rw [h.sum_eq, h.length_eq]

theorem mean_nonneg {l : List ℚ} (h : ∀ x ∈ l, 0 ≤ x) : 0 ≤ mean l :=
  div_nonneg (List.sum_nonneg h) (by positivity)

theorem int_cast_trunc_of_nonneg {q : ℚ} (h : 0 ≤ q) : int_cast_trunc q = ⌊q⌋ := by
  unfold int_cast_trunc
  rw [Int.tdiv_eq_ediv (Rat.num_nonneg.mpr h) (by positivity)]
  exact Rat.floor_def.symm

theorem dedup_of_nodup_instant {df : List Row} (h : (df.map sameInstantKey).Nodup) :
    deduplicate_same_device df = df := by
  unfold deduplicate_same_device
  by_cases h0 : df.isEmpty
  · rw [if_pos h0]
  · rw [if_neg h0]
    refine group_by_agg_of_nodup h ?_
    intro r
    cases r with
    | mk ts hr dev user => simp [meanFirstAgg, sameInstantKey, mean]

theorem apply_of_nodup_ts {df : List Row} (h : (df.map Row.timestamp_ms).Nodup) :
    apply_device_priority df = List.insertionSort prioLE df := by
  unfold apply_device_priority
  by_cases h0 : df.isEmpty
  · rw [if_pos h0, List.isEmpty_iff.mp h0]
    rfl
  · rw [if_neg h0]
    unfold group_first_by_ts
    refine group_by_agg_of_nodup ?_ ?_
    · exact (((List.perm_insertionSort prioLE df).map Row.timestamp_ms).nodup_iff).mpr h
    · intro r
      rfl

/-- C6 counterexample: two samples of one device at the identical instant
(60, 70 at t = 0 ms) and one more at t = 1000 ms (hr 100), all inside minute
0 and inside the query range.  The reader first averages the same-instant
pair (to 65), then averages per minute: (65 + 100) / 2 = 82 after the cast —
but floor(mean(inputs)) = floor(230 / 3) = 76.  The claim's formula fails
when exact timestamps repeat. -/
theorem c6_same_instant_duplicates :
    (query_heart_rate_data "u1" 0 86399999 none
        [⟨"1970-01-01", "u1",
          [[⟨0, 60, "device_a", "u1"⟩, ⟨0, 70, "device_a", "u1"⟩,
            ⟨1000, 100, "device_a", "u1"⟩]]⟩]).map OutRow.heart_rate
      = [82] ∧
    (⌊mean ([(⟨0, 60, "device_a", "u1"⟩ : Row), ⟨0, 70, "device_a", "u1"⟩,
        ⟨1000, 100, "device_a", "u1"⟩].map Row.heart_rate)⌋ : Int) = 76 ∧
    (82 : Int) ≠ 76 := by
  refine ⟨?_, ?_, by decide⟩
  · norm_num [query_heart_rate_data, read_user_data, dateStrsInRange, dayFloor, framesFor,
      aggregate_by_minute, deduplicate_same_device, aggregate_select_device,
      apply_device_priority, group_by_agg, group_first_by_ts, firstDedup, firstDedupAux,
      sameInstantKey, minuteKey, meanFirstAgg, mean, minuteFloor, List.insertionSort,
      List.orderedInsert, prioLE, minuteDevLE, get_priority, DEVICE_PRIORITY, strLE,
      charListLe, formatOutRow, int_cast_trunc, outLE, List.filter, dateStrOfDays,
      civilFromDays]
    decide
  · norm_num [mean]

/-- C6 amended: for every non-empty set of stored samples of a single device
read for the query (all inside the range and inside one UTC minute `m`),
with pairwise-distinct exact timestamps and nonnegative heart rates, the
reader returns exactly one row for that minute and device, whose
`heart_rate` is the floor of the arithmetic mean of the stored heart rates
(the final cast truncates, which on these nonnegative means is the floor).
When exact timestamps repeat, the same-instant dedup averages them first
and the result is the mean of the per-instant means instead. -/
theorem c6_per_minute_floor_mean (u : String) (start_ms end_ms m : Int) (d : String)
    (store : Store) (rows : List Row)
    (hread : read_user_data u start_ms end_ms store = rows)
    (hne : rows ≠ [])
    (hdev : ∀ r ∈ rows, r.device_id = d)
    (hmin : ∀ r ∈ rows, minuteFloor r.timestamp_ms = m)
    (hnodup : (rows.map Row.timestamp_ms).Nodup)
    (hpos : ∀ r ∈ rows, 0 ≤ r.heart_rate) :
    query_heart_rate_data u start_ms end_ms none store
      = [{ timestamp := isoTimestamp m,
           heart_rate := ⌊mean (rows.map Row.heart_rate)⌋,
           device_id := d }] := by
  have hnotempty : ¬ (rows.isEmpty = true) := fun h => hne (List.isEmpty_iff.mp h)
  have hpairs : (rows.map sameInstantKey).Nodup := by
    have h1 : rows.map Row.timestamp_ms = (rows.map sameInstantKey).map Prod.fst := by
      rw [List.map_map]
      rfl
    rw [h1] at hnodup
    exact hnodup.of_map Prod.fst
  have hdedup : deduplicate_same_device rows = rows := dedup_of_nodup_instant hpairs
  have happly : apply_device_priority rows = List.insertionSort prioLE rows :=
    apply_of_nodup_ts hnodup
  have hperm1 : (List.insertionSort prioLE rows).Perm rows := List.perm_insertionSort _ _
  have hs1ne : ¬ ((List.insertionSort prioLE rows).isEmpty = true) := by
    intro h
    have h2 := List.isEmpty_iff.mp h
    rw [h2] at hperm1
    exact hne (List.Perm.eq_nil hperm1.symm)
  have hperm2 : (List.insertionSort minuteDevLE (List.insertionSort prioLE rows)).Perm
      (List.insertionSort prioLE rows) := List.perm_insertionSort _ _
  have hperm : (List.insertionSort minuteDevLE (List.insertionSort prioLE rows)).Perm rows :=
    hperm2.trans hperm1
  have hs2ne : List.insertionSort minuteDevLE (List.insertionSort prioLE rows) ≠ [] := by
    intro h
    rw [h] at hperm
    exact hne (List.Perm.eq_nil hperm.symm)
  have hagg : aggregate_by_minute rows none
      = group_by_agg minuteKey meanFirstAgg
          (List.insertionSort minuteDevLE (List.insertionSort prioLE rows)) := by
    unfold aggregate_by_minute aggregate_select_device
    rw [hdedup, happly, if_neg hnotempty, if_neg hnotempty, if_neg hs1ne]
  have hconstkey : ∀ r ∈ List.insertionSort minuteDevLE (List.insertionSort prioLE rows),
      minuteKey r = (m, d) := by
    intro r hr
    have hrr : r ∈ rows := hperm.mem_iff.mp hr
    unfold minuteKey
    rw [hmin r hrr, hdev r hrr]
  have hkeys : firstDedup ((List.insertionSort minuteDevLE
      (List.insertionSort prioLE rows)).map minuteKey) = [(m, d)] := by
    refine firstDedup_const ?_ ?_
    · simp only [Ne, List.map_eq_nil_iff]
      exact hs2ne
    · intro x hx
      obtain ⟨r, hr, rfl⟩ := List.mem_map.mp hx
      exact hconstkey r hr
  have hfilter : (List.insertionSort minuteDevLE (List.insertionSort prioLE rows)).filter
      (fun r => minuteKey r = (m, d))
      = List.insertionSort minuteDevLE (List.insertionSort prioLE rows) := by
    refine List.filter_eq_self.mpr ?_
    intro r hr
    simp [hconstkey r hr]
  have hgroup : group_by_agg minuteKey meanFirstAgg
      (List.insertionSort minuteDevLE (List.insertionSort prioLE rows))
      = [meanFirstAgg (m, d)
          (List.insertionSort minuteDevLE (List.insertionSort prioLE rows))] := by
    unfold group_by_agg
    rw [hkeys, List.map_cons, List.map_nil, hfilter]
  have hmw : mean ((List.insertionSort minuteDevLE
        (List.insertionSort prioLE rows)).map Row.heart_rate)
      = mean (rows.map Row.heart_rate) := mean_perm (hperm.map Row.heart_rate)
  unfold query_heart_rate_data
  rw [hread, if_neg hnotempty, hagg, hgroup, if_neg (by simp)]
  rw [List.map_cons, List.map_nil]
  have hsort1 : ∀ o : OutRow, List.insertionSort outLE [o] = [o] := by
    intro o
    simp [List.insertionSort, List.orderedInsert]
  rw [hsort1]
  have hmean_nonneg : 0 ≤ mean (rows.map Row.heart_rate) := by
    refine mean_nonneg ?_
    intro x hx
    obtain ⟨r, hr, rfl⟩ := List.mem_map.mp hx
    exact hpos r hr
  unfold formatOutRow meanFirstAgg
  rw [hmw, int_cast_trunc_of_nonneg hmean_nonneg]

/-- Witness for C6: two `device_a` samples at 10 s and 40 s past the epoch
minute (heart rates 70 and 71), stored in the 1970-01-01 directory and
queried over the whole day; the reader returns exactly one row for minute 0
with the floored mean. -/
theorem c6_per_minute_floor_mean_witness :
    query_heart_rate_data "u1" 0 86399999 none
        [⟨"1970-01-01", "u1",
          [[⟨10000, 70, "device_a", "u1"⟩], [⟨40000, 71, "device_a", "u1"⟩]]⟩]
      = [{ timestamp := isoTimestamp 0,
           heart_rate := ⌊mean ([(⟨10000, 70, "device_a", "u1"⟩ : Row),
             ⟨40000, 71, "device_a", "u1"⟩].map Row.heart_rate)⌋,
           device_id := "device_a" }] :=
  c6_per_minute_floor_mean "u1" 0 86399999 0 "device_a"
    [⟨"1970-01-01", "u1", [[⟨10000, 70, "device_a", "u1"⟩], [⟨40000, 71, "device_a", "u1"⟩]]⟩]
    [⟨10000, 70, "device_a", "u1"⟩, ⟨40000, 71, "device_a", "u1"⟩]
    (by decide) (by decide) (by decide) (by decide) (by decide) (by decide)

/-! ## C7 : range behaviour of the reader -/

theorem read_user_data_spec (u : String) (start_ms end_ms : Int) (store : Store) :
    ∀ r ∈ read_user_data u start_ms end_ms store,
      (start_ms ≤ r.timestamp_ms ∧ r.timestamp_ms ≤ end_ms) ∧
      r ∈ (store.flatMap UserDayDir.frames).flatten := by
  intro r hr
  unfold read_user_data at hr
  have h1 := List.mem_filter.mp hr
  refine ⟨by simpa using h1.2, ?_⟩
  obtain ⟨frame, hfr, hrf⟩ := List.mem_flatten.mp h1.1
  obtain ⟨dstr, _, hfr2⟩ := List.mem_flatMap.mp hfr
  unfold framesFor at hfr2
  obtain ⟨entry, hent, hfr3⟩ := List.mem_flatMap.mp hfr2
  have hent2 : entry ∈ store := (List.mem_filter.mp hent).1
  exact List.mem_flatten.mpr ⟨frame, List.mem_flatMap.mpr ⟨entry, hent2, hfr3⟩, hrf⟩

theorem minuteFloor_le (t : Int) : minuteFloor t ≤ t := by
  unfold minuteFloor
  have h := Int.emod_nonneg t (by norm_num : (60000 : Int) ≠ 0)
  have h2 := Int.ediv_add_emod t 60000
  omega

theorem minuteFloor_mono {s t : Int} (h : s ≤ t) : minuteFloor s ≤ minuteFloor t := by
  unfold minuteFloor
  have := Int.ediv_le_ediv (by norm_num : (0 : Int) < 60000) h
  omega

theorem aggregate_by_minute_ts_mem (df : List Row) (dev : Option String) :
    ∀ s ∈ aggregate_by_minute df dev,
      ∃ r ∈ df, s.timestamp_ms = minuteFloor r.timestamp_ms := by
  intro s hs
  rcases aggregate_by_minute_shape df dev with h | ⟨df2, hprov, h⟩
  · rw [h] at hs
    exact absurd hs (List.not_mem_nil s)
  · rw [h] at hs
    obtain ⟨k, hk, rfl⟩ := group_by_agg_mem hs
    obtain ⟨r2, hr2, hkr⟩ := List.mem_map.mp hk
    have hr2b : r2 ∈ df2 := (List.perm_insertionSort minuteDevLE df2).mem_iff.mp hr2
    obtain ⟨r, hr, hts⟩ := hprov r2 hr2b
    refine ⟨r, hr, ?_⟩
    show k.1 = minuteFloor r.timestamp_ms
    rw [← hkr]
    show minuteFloor r2.timestamp_ms = minuteFloor r.timestamp_ms
    rw [hts]

/-- C7 counterexample: with `start` 30 s past the minute boundary, an
in-range sample at 40 s is emitted as the minute row `00:00`, whose instant
(0 ms) lies before `start` (30000 ms) — the emitted timestamp is outside
`[start, end]`. -/
theorem c7_truncated_before_start :
    (query_heart_rate_data "u1" 30000 90000 none
        [⟨"1970-01-01", "u1", [[⟨40000, 75, "device_a", "u1"⟩]]⟩]).map OutRow.timestamp
      = [isoTimestamp 0] ∧
    isoTimestamp 0 = "1970-01-01T00:00:00Z" ∧
    ¬ (30000 ≤ (0 : Int)) := by
  exact ⟨by decide, by decide, by decide⟩

/-- C7 amended: only stored samples with `timestamp_ms` in the inclusive
interval `[epoch_ms(start), epoch_ms(end)]` contribute (every row the read
step yields is in range and comes from the store), and every emitted
timestamp is the minute-truncation of some contributing sample's timestamp —
hence it lies in `[minuteFloor(start), end]`, which may start up to a minute
before `start` when `start` is not minute-aligned. -/
theorem c7_range_and_truncation (u : String) (start_ms end_ms : Int) (dev : Option String)
    (store : Store) :
    (∀ r ∈ read_user_data u start_ms end_ms store,
      (start_ms ≤ r.timestamp_ms ∧ r.timestamp_ms ≤ end_ms) ∧
      r ∈ (store.flatMap UserDayDir.frames).flatten) ∧
    (∀ o ∈ query_heart_rate_data u start_ms end_ms dev store,
      ∃ t : Int, (∃ r ∈ read_user_data u start_ms end_ms store, r.timestamp_ms = t) ∧
        o.timestamp = isoTimestamp (minuteFloor t) ∧
        minuteFloor start_ms ≤ minuteFloor t ∧ minuteFloor t ≤ end_ms) := by
  refine ⟨read_user_data_spec u start_ms end_ms store, ?_⟩
  intro o ho
  unfold query_heart_rate_data at ho
  by_cases h0 : (read_user_data u start_ms end_ms store).isEmpty
  · rw [if_pos h0] at ho
    exact absurd ho (List.not_mem_nil o)
  · rw [if_neg h0] at ho
    by_cases h1 : (aggregate_by_minute (read_user_data u start_ms end_ms store) dev).isEmpty
    · rw [if_pos h1] at ho
      exact absurd ho (List.not_mem_nil o)
    · rw [if_neg h1] at ho
      have ho2 : o ∈ (aggregate_by_minute (read_user_data u start_ms end_ms store) dev).map
          formatOutRow := (List.perm_insertionSort outLE _).mem_iff.mp ho
      obtain ⟨a, ha, rfl⟩ := List.mem_map.mp ho2
      obtain ⟨r, hr, hts⟩ := aggregate_by_minute_ts_mem _ dev a ha
      have hbounds := (read_user_data_spec u start_ms end_ms store r hr).1
      refine ⟨r.timestamp_ms, ⟨r, hr, rfl⟩, ?_, ?_, ?_⟩
      · show isoTimestamp a.timestamp_ms = isoTimestamp (minuteFloor r.timestamp_ms)
        rw [hts]
      · exact minuteFloor_mono hbounds.1
      · exact le_trans (minuteFloor_le _) hbounds.2

/-- Witness for C7 on a concrete store: the stored sample at 40000 ms is in
range and comes from the store, and the emitted row's timestamp is the
minute-truncation of a contributing sample's timestamp, within
`[minuteFloor(start), end]`. -/
theorem c7_range_witness :
    ((30000 ≤ (⟨40000, 75, "device_a", "u1"⟩ : Row).timestamp_ms ∧
        (⟨40000, 75, "device_a", "u1"⟩ : Row).timestamp_ms ≤ 90000) ∧
      (⟨40000, 75, "device_a", "u1"⟩ : Row) ∈
        (([⟨"1970-01-01", "u1", [[⟨40000, 75, "device_a", "u1"⟩]]⟩] : Store).flatMap
          UserDayDir.frames).flatten) ∧
    (∃ t : Int, (∃ r ∈ read_user_data "u1" 30000 90000
          [⟨"1970-01-01", "u1", [[⟨40000, 75, "device_a", "u1"⟩]]⟩], r.timestamp_ms = t) ∧
      ((query_heart_rate_data "u1" 30000 90000 none
          [⟨"1970-01-01", "u1", [[⟨40000, 75, "device_a", "u1"⟩]]⟩]).headD
            ⟨"", 0, ""⟩).timestamp = isoTimestamp (minuteFloor t) ∧
      minuteFloor 30000 ≤ minuteFloor t ∧ minuteFloor t ≤ 90000) := by
  constructor
  · exact (c7_range_and_truncation "u1" 30000 90000 none
      [⟨"1970-01-01", "u1", [[⟨40000, 75, "device_a", "u1"⟩]]⟩]).1
      ⟨40000, 75, "device_a", "u1"⟩ (by decide)
  · have hmap : (query_heart_rate_data "u1" 30000 90000 none
        [⟨"1970-01-01", "u1", [[⟨40000, 75, "device_a", "u1"⟩]]⟩]).map OutRow.timestamp
        = [isoTimestamp 0] := by decide
    have hne : query_heart_rate_data "u1" 30000 90000 none
        [⟨"1970-01-01", "u1", [[⟨40000, 75, "device_a", "u1"⟩]]⟩] ≠ [] := by
      intro h
      rw [h] at hmap
      exact absurd hmap (by simp)
    exact (c7_range_and_truncation "u1" 30000 90000 none
      [⟨"1970-01-01", "u1", [[⟨40000, 75, "device_a", "u1"⟩]]⟩]).2 _ (headD_mem hne ⟨"", 0, ""⟩)

/-! ## C10 : the reader selects by directory path only -/

theorem isEmpty_map (f : α → β) (l : List α) : (l.map f).isEmpty = l.isEmpty := by
  cases l <;> rfl

theorem flatMap_congr {f h : α → List β} :
    ∀ {l : List α}, (∀ a ∈ l, f a = h a) → l.flatMap f = l.flatMap h := by
  intro l
  induction l with
  | nil => intro _; rfl
  | cons a t ih =>
      intro hall
      simp only [List.flatMap_cons]
      rw [hall a (List.mem_cons_self a t), ih (fun x hx => hall x (List.mem_cons_of_mem _ hx))]

theorem filter_map_comm (f : α → β) (p : β → Bool) (q : α → Bool)
    (h : ∀ a, p (f a) = q a) : ∀ l : List α, (l.map f).filter p = (l.filter q).map f := by
  intro l
  induction l with
  | nil => rfl
  | cons a t ih =>
      simp only [List.map_cons, List.filter_cons, h a]
      cases q a
      · simpa using ih
      · simpa using ih

theorem headD_map_of_ne_nil (f : α → β) {l : List α} (h : l ≠ []) (d : β) (d0 : α) :
    (l.map f).headD d = f (l.headD d0) := by
  cases l with
  | nil => exact absurd rfl h
  | cons a t => rfl

theorem orderedInsert_map {α : Type} (r : α → α → Prop) [DecidableRel r] (f : α → α)
    (hrel : ∀ a b, r (f a) (f b) ↔ r a b) (a : α) :
    ∀ l : List α, List.orderedInsert r (f a) (l.map f) = (List.orderedInsert r a l).map f := by
  intro l
  induction l with
  | nil => rfl
  | cons b t ih =>
      simp only [List.map_cons, List.orderedInsert]
      by_cases h : r a b
      · rw [if_pos ((hrel a b).mpr h), if_pos h]
        rfl
      · rw [if_neg (fun hc => h ((hrel a b).mp hc)), if_neg h, List.map_cons, ih]

theorem insertionSort_map {α : Type} (r : α → α → Prop) [DecidableRel r] (f : α → α)
    (hrel : ∀ a b, r (f a) (f b) ↔ r a b) :
    ∀ l : List α, List.insertionSort r (l.map f) = (List.insertionSort r l).map f := by
  intro l
  induction l with
  | nil => rfl
  | cons b t ih =>
      simp only [List.map_cons, List.insertionSort]
      rw [ih, orderedInsert_map r f hrel b]

theorem group_by_agg_map_commute {K : Type} [DecidableEq K] (key : Row → K)
    (agg : K → List Row → Row) (f : Row → Row)
    (hkey : ∀ r, key (f r) = key r)
    (hagg : ∀ (k : K) (g : List Row), g ≠ [] → agg k (g.map f) = f (agg k g))
    (l : List Row) :
    group_by_agg key agg (l.map f) = (group_by_agg key agg l).map f := by
  unfold group_by_agg
  have hkeys : (l.map f).map key = l.map key := by
    rw [List.map_map]
    exact List.map_congr_left (fun r _ => hkey r)
  rw [hkeys, List.map_map]
  refine List.map_congr_left ?_
  intro k hk
  simp only [Function.comp_apply]
  have hfilter : (l.map f).filter (fun r => key r = k) = (l.filter (fun r => key r = k)).map f :=
    filter_map_comm f _ _ (fun a => by simp [hkey a]) l
  rw [hfilter]
  exact hagg k _ (group_filter_ne_nil hk)

theorem meanFirstAgg_rename (g : String → String) (k : Int × String) (grp : List Row)
    (hne : grp ≠ []) :
    meanFirstAgg k (grp.map (renameUserRow g)) = renameUserRow g (meanFirstAgg k grp) := by
  unfold meanFirstAgg
  have hhr : (grp.map (renameUserRow g)).map Row.heart_rate = grp.map Row.heart_rate := by
    rw [List.map_map]
    exact List.map_congr_left (fun r _ => rfl)
  have huser : (grp.map (renameUserRow g)).map Row.user_id
      = (grp.map Row.user_id).map g := by
    rw [List.map_map, List.map_map]
    exact List.map_congr_left (fun r _ => rfl)
  have husers_ne : grp.map Row.user_id ≠ [] := by
    simp only [Ne, List.map_eq_nil_iff]
    exact hne
  rw [hhr, huser, headD_map_of_ne_nil g husers_ne "" ""]
  rfl

theorem dedup_rename (g : String → String) (l : List Row) :
    deduplicate_same_device (l.map (renameUserRow g))
      = (deduplicate_same_device l).map (renameUserRow g) := by
  unfold deduplicate_same_device
  rw [isEmpty_map]
  by_cases h0 : l.isEmpty
  · rw [if_pos h0, if_pos h0]
  · rw [if_neg h0, if_neg h0]
    exact group_by_agg_map_commute sameInstantKey meanFirstAgg (renameUserRow g)
      (fun r => rfl) (meanFirstAgg_rename g) l

theorem apply_rename (g : String → String) (l : List Row) :
    apply_device_priority (l.map (renameUserRow g))
      = (apply_device_priority l).map (renameUserRow g) := by
  unfold apply_device_priority
  rw [isEmpty_map]
  by_cases h0 : l.isEmpty
  · rw [if_pos h0, if_pos h0]
  · rw [if_neg h0, if_neg h0]
    unfold group_first_by_ts
    rw [insertionSort_map prioLE (renameUserRow g) (fun a b => Iff.rfl) l]
    exact group_by_agg_map_commute Row.timestamp_ms (fun _ grp => grp.headD default)
      (renameUserRow g) (fun r => rfl)
      (fun _ grp hne => headD_map_of_ne_nil (renameUserRow g) hne default default)
      (List.insertionSort prioLE l)

theorem select_rename (g : String → String) (l : List Row) (dev : Option String) :
    aggregate_select_device (l.map (renameUserRow g)) dev
      = (aggregate_select_device l dev).map (renameUserRow g) := by
  unfold aggregate_select_device
  cases dev with
  | some d => exact filter_map_comm (renameUserRow g) _ _ (fun a => rfl) l
  | none => exact apply_rename g l

theorem aggregate_rename (g : String → String) (l : List Row) (dev : Option String) :
    aggregate_by_minute (l.map (renameUserRow g)) dev
      = (aggregate_by_minute l dev).map (renameUserRow g) := by
  unfold aggregate_by_minute
  rw [dedup_rename g l, select_rename g (deduplicate_same_device l) dev,
    isEmpty_map, isEmpty_map, isEmpty_map]
  by_cases h0 : l.isEmpty
  · rw [if_pos h0, if_pos h0]
  · rw [if_neg h0, if_neg h0]
    by_cases h1 : (deduplicate_same_device l).isEmpty
    · rw [if_pos h1, if_pos h1]
    · rw [if_neg h1, if_neg h1]
      by_cases h2 : (aggregate_select_device (deduplicate_same_device l) dev).isEmpty
      · rw [if_pos h2, if_pos h2]
      · rw [if_neg h2, if_neg h2]
        rw [insertionSort_map minuteDevLE (renameUserRow g) (fun a b => Iff.rfl) _]
        exact group_by_agg_map_commute minuteKey meanFirstAgg (renameUserRow g)
          (fun r => rfl) (meanFirstAgg_rename g) _

theorem framesFor_rename (g : String → String) (store : Store) (d u : String) :
    framesFor (renameUserStore g store) d u
      = (framesFor store d u).map (List.map (renameUserRow g)) := by
  unfold framesFor renameUserStore
  have hfil : (store.map
        (fun e => { e with frames := e.frames.map (List.map (renameUserRow g)) })).filter
        (fun e => decide (e.date_str = d ∧ e.user_id = u))
      = (store.filter (fun e => decide (e.date_str = d ∧ e.user_id = u))).map
          (fun e => { e with frames := e.frames.map (List.map (renameUserRow g)) }) :=
    filter_map_comm _ _ _ (fun e => rfl) store
  rw [hfil, List.flatMap_map, List.map_flatMap]

theorem read_rename (g : String → String) (u : String) (start_ms end_ms : Int) (store : Store) :
    read_user_data u start_ms end_ms (renameUserStore g store)
      = (read_user_data u start_ms end_ms store).map (renameUserRow g) := by
  unfold read_user_data
  have h1 : (dateStrsInRange start_ms end_ms).flatMap
        (fun d => framesFor (renameUserStore g store) d u)
      = ((dateStrsInRange start_ms end_ms).flatMap (fun d => framesFor store d u)).map
          (List.map (renameUserRow g)) := by
    rw [flatMap_congr (fun d _ => framesFor_rename g store d u), List.map_flatMap]
  rw [h1, ← List.map_flatten]
  exact filter_map_comm (renameUserRow g) _ _ (fun a => rfl) _

theorem read_congr {u : String} {start_ms end_ms : Int} {store1 store2 : Store}
    (h : ∀ d ∈ dateStrsInRange start_ms end_ms, framesFor store1 d u = framesFor store2 d u) :
    read_user_data u start_ms end_ms store1 = read_user_data u start_ms end_ms store2 := by
  unfold read_user_data
  rw [flatMap_congr h]

/-- C10: the reader selects data solely by directory path.  (a) Two stores
holding the same frames under `data/<date>/user-<u>/` for every date in the
query range produce identical query output, whatever either store holds in
other users' directories; (b) renaming the `user_id` column of every stored
row (directories unchanged) leaves the output unchanged — the reader never
filters on the `user_id` column, so an in-range row in `u`'s directory
contributes even if its `user_id` differs from `u`; (c) if `u`'s
directories are empty in the range, the query returns nothing, wherever
else rows for `u` may be stored. -/
theorem c10_read_by_directory (u : String) (start_ms end_ms : Int) (dev : Option String) :
    (∀ store1 store2 : Store,
      (∀ d ∈ dateStrsInRange start_ms end_ms, framesFor store1 d u = framesFor store2 d u) →
      query_heart_rate_data u start_ms end_ms dev store1
        = query_heart_rate_data u start_ms end_ms dev store2) ∧
    (∀ (g : String → String) (store : Store),
      query_heart_rate_data u start_ms end_ms dev (renameUserStore g store)
        = query_heart_rate_data u start_ms end_ms dev store) ∧
    (∀ store : Store,
      (∀ d ∈ dateStrsInRange start_ms end_ms, framesFor store d u = []) →
      query_heart_rate_data u start_ms end_ms dev store = []) := by
  refine ⟨?_, ?_, ?_⟩
  · intro store1 store2 h
    unfold query_heart_rate_data
    rw [read_congr h]
  · intro g store
    unfold query_heart_rate_data
    rw [read_rename g u start_ms end_ms store, isEmpty_map]
    by_cases h0 : (read_user_data u start_ms end_ms store).isEmpty
    · rw [if_pos h0, if_pos h0]
    · rw [if_neg h0, if_neg h0]
      rw [aggregate_rename g _ dev, isEmpty_map]
      by_cases h1 : (aggregate_by_minute (read_user_data u start_ms end_ms store) dev).isEmpty
      · rw [if_pos h1, if_pos h1]
      · rw [if_neg h1, if_neg h1]
        rw [List.map_map]
        rfl
  · intro store h
    have hread : read_user_data u start_ms end_ms store = [] := by
      unfold read_user_data
      rw [flatMap_congr h]
      simp
    unfold query_heart_rate_data
    rw [hread]
    rfl

/-- Witness for C10 at concrete stores: adding another user's directory does
not change `u1`'s query; renaming every stored `user_id` to a constant does
not change the output; and a store holding `u1` rows only inside `u2`'s
directory yields the empty result for `u1`. -/
theorem c10_read_by_directory_witness :
    query_heart_rate_data "u1" 0 86399999 none
        [⟨"1970-01-01", "u1", [[⟨40000, 75, "device_a", "u1"⟩]]⟩,
         ⟨"1970-01-01", "u2", [[⟨50000, 90, "device_b", "u2"⟩]]⟩]
      = query_heart_rate_data "u1" 0 86399999 none
        [⟨"1970-01-01", "u1", [[⟨40000, 75, "device_a", "u1"⟩]]⟩] ∧
    query_heart_rate_data "u1" 0 86399999 none
        (renameUserStore (fun _ => "someone-else")
          [⟨"1970-01-01", "u1", [[⟨40000, 75, "device_a", "u1"⟩]]⟩])
      = query_heart_rate_data "u1" 0 86399999 none
        [⟨"1970-01-01", "u1", [[⟨40000, 75, "device_a", "u1"⟩]]⟩] ∧
    query_heart_rate_data "u1" 0 86399999 none
        [⟨"1970-01-01", "u2", [[⟨40000, 75, "device_a", "u1"⟩]]⟩] = [] :=
  ⟨(c10_read_by_directory "u1" 0 86399999 none).1
      [⟨"1970-01-01", "u1", [[⟨40000, 75, "device_a", "u1"⟩]]⟩,
       ⟨"1970-01-01", "u2", [[⟨50000, 90, "device_b", "u2"⟩]]⟩]
      [⟨"1970-01-01", "u1", [[⟨40000, 75, "device_a", "u1"⟩]]⟩]
      (by decide),
   (c10_read_by_directory "u1" 0 86399999 none).2.1 (fun _ => "someone-else")
      [⟨"1970-01-01", "u1", [[⟨40000, 75, "device_a", "u1"⟩]]⟩],
   (c10_read_by_directory "u1" 0 86399999 none).2.2
      [⟨"1970-01-01", "u2", [[⟨40000, 75, "device_a", "u1"⟩]]⟩]
      (by decide)⟩
